import Mathlib

/-!
Shallow embedding of the bulk-messaging subsystem of the techies-welfare
repository (`BulkMessageService` and its collaborators), together with
proofs of the specified properties.

The service class `BulkMessageService` is embedded from the source file
directly.  Collaborators that the source only references through interfaces
(`IRecipientResolver`, `IMessageContextFactory`, `IMessageTemplateResolver`,
`IMessageTransport`) are embedded as records of functions; asynchronous,
possibly-failing calls are modelled as `Except String` values (the `String`
being the JavaScript error's `.message`).  Mutation of the report and of the
recipient accumulator is modelled by explicit state passing.  The cooperative
concurrency of `Promise.all` / `BatchJobQueue` is modelled by in-order
sequential processing, one admissible interleaving of the single-threaded
scheduler.
-/

/-- A user record; only the fields the bulk-messaging core reads. -/
structure IUser where
  _id : String
  name : String
  phone : String
deriving Repr, DecidableEq

/-- A message context: the per-user field map consumed by the template
resolver.  Its internal structure is irrelevant to the service. -/
def MessageContext : Type := List (String × String)

/-- One success entry of the report: `{ user: recipient._id, name: recipient.name }`. -/
structure RecipientEntry where
  user : String
  name : String
deriving Repr, DecidableEq

/-- One failure entry of the report.  Group-level failures set
`recipientGroup` and leave `user`/`name` null; per-recipient failures set
`user`/`name` and leave `recipientGroup` absent (modelled as `none`). -/
structure ErrorEntry where
  recipientGroup : Option String
  user : Option String
  name : Option String
  message : String
deriving Repr, DecidableEq

/-- The `BulkMessageReport` accumulator. -/
structure BulkMessageReport where
  errors : List ErrorEntry
  numFailed : Nat
  numRecipients : Nat
  recipients : List RecipientEntry
deriving Repr, DecidableEq

/-- `IRecipientResolver`: `canResolve` predicate and failable `resolve`. -/
structure IRecipientResolver where
  canResolve : String → Bool
  resolve : String → Except String (List IUser)

/-- `IMessageContextFactory.createContextFromUser`. -/
structure IMessageContextFactory where
  createContextFromUser : IUser → Except String MessageContext

/-- `IMessageTemplateResolver.resolve`. -/
structure IMessageTemplateResolver where
  resolve : MessageContext → String → Except String String

/-- `IMessageTransport.sendMessage`. -/
structure IMessageTransport where
  sendMessage : IUser → String → Except String Unit

/-- `ISmsService.sendSms(to, message)`. -/
structure ISmsService where
  sendSms : String → String → Except String Unit

/-- Modelled from the spec: the user-lookup service (`IUserService`, whose
source is not under src/) as far as the default recipient resolver needs
it: a user lookup. -/
structure IUserService where
  getAllUsers : Except String (List IUser)

/-- The service after construction: the four collaborators it stores. -/
structure BulkMessageService where
  recipientResolver : IRecipientResolver
  contextFactory : IMessageContextFactory
  templateResolver : IMessageTemplateResolver
  transport : IMessageTransport

/-- Constructor arguments (`BulkMessageServiceArgs`); optional fields are
`Option`s, and `users` is also optional because the constructor guards on
its absence. -/
structure BulkMessageServiceArgs where
  contextFactory : IMessageContextFactory
  templateResolver : Option IMessageTemplateResolver
  transport : Option IMessageTransport
  smsService : Option ISmsService
  recipientResolver : Option IRecipientResolver
  users : Option IUserService

/-- Modelled from the spec: `MessageTemplateResolver` (template-resolver.ts
is not under src/) substitutes placeholders in the template using the
fields of the context; deterministic. -/
def MessageTemplateResolver : IMessageTemplateResolver :=
  { resolve := fun context template =>
      .ok (context.foldl (fun t kv => t.replace ("\x7b\x7b" ++ kv.1 ++ "\x7d\x7d") kv.2) template) }

/-- Modelled from the spec: `RecipientResolver` (recipient-resolver.ts is
not under src/) resolves named groups such as "all" through the user-lookup
service. -/
def RecipientResolver (users : Option IUserService) : IRecipientResolver :=
  { canResolve := fun group => group == "all"
    resolve := fun group =>
      match users with
      | some u => if group == "all" then u.getAllUsers else .error ("Unknown recipient group: " ++ group)
      | none => .error ("Unknown recipient group: " ++ group) }

/-- Modelled from the spec: `SmsMessageTransport` (sms-transport.ts is not
under src/) wraps the SMS service, delivering the rendered message to the
recipient. -/
def SmsMessageTransport (smsService : Option ISmsService) : IMessageTransport :=
  { sendMessage := fun recipient message =>
      match smsService with
      | some sms => sms.sendSms recipient.phone message
      | none => .error "SMS service not configured" }

/-- Modelled from the spec: `getPreviewUser` (preview-user.ts is not under
src/) returns a fixed synthetic, non-persisted preview user. -/
def getPreviewUser : IUser :=
  { _id := "preview-user", name := "John Doe", phone := "+254700000000" }

/-- The `BulkMessageService` constructor: throws when both members of a
required collaborator pair are absent, otherwise fills each missing
collaborator with its default implementation. -/
def BulkMessageService.construct (args : BulkMessageServiceArgs) : Except String BulkMessageService :=
  if args.recipientResolver.isNone && args.users.isNone then
    .error "Bulk message args must provide either recipientsResolver or users"
  else if args.transport.isNone && args.smsService.isNone then
    .error "Bulk message args must provide either transport or smsProvider"
  else
    .ok { contextFactory := args.contextFactory
          templateResolver := args.templateResolver.getD MessageTemplateResolver
          recipientResolver := args.recipientResolver.getD (RecipientResolver args.users)
          transport := args.transport.getD (SmsMessageTransport args.smsService) }

/-- `createMessageForUser`: context creation then template resolution;
either failure propagates. -/
def BulkMessageService.createMessageForUser (svc : BulkMessageService) (user : IUser) (template : String) : Except String String := do
  let context ← svc.contextFactory.createContextFromUser user
  svc.templateResolver.resolve context template

/-- The body of `sendToRecipient`'s try block as a single failable action:
render the message, then deliver it via the transport. -/
def BulkMessageService.sendAttempt (svc : BulkMessageService) (recipient : IUser) (template : String) : Except String Unit := do
  let message ← svc.createMessageForUser recipient template
  svc.transport.sendMessage recipient message

/-- `sendToRecipient`: on success, count the recipient and append a success
entry; on any failure (context, rendering or transport), append an error
entry and count the failure.  The try/catch is modelled by matching on the
combined attempt. -/
def BulkMessageService.sendToRecipient (svc : BulkMessageService) (recipient : IUser) (template : String) (report : BulkMessageReport) : BulkMessageReport :=
  match svc.sendAttempt recipient template with
  | .ok _ =>
    { report with
      numRecipients := report.numRecipients + 1
      recipients := report.recipients ++ [{ user := recipient._id, name := recipient.name }] }
  | .error e =>
    { report with
      errors := report.errors ++ [{ recipientGroup := none, user := some recipient._id, name := some recipient.name, message := e }]
      numFailed := report.numFailed + 1 }

/-- Modelled from the spec: `BatchJobQueue` (util is not under src/) runs
the handler once for every pushed item and resolves once all handlers have
settled; completion order is unspecified, modelled here as queue order. -/
def batchJobQueueRun {α σ : Type} (handler : α → σ → σ) (items : List α) (s : σ) : σ :=
  items.foldl (fun s a => handler a s) s

/-- `sendToRecipients`: feed every recipient through the batch queue whose
handler is `sendToRecipient`. -/
def BulkMessageService.sendToRecipients (svc : BulkMessageService) (recipients : List IUser) (template : String) (report : BulkMessageReport) : BulkMessageReport :=
  batchJobQueueRun (fun recipient rep => svc.sendToRecipient recipient template rep) recipients report

/-- The mutable state threaded through recipient resolution: the
`allRecipients` array, the `recipientIds` set (modelled as the list of ids
in insertion order) and the report. -/
structure ResolveState where
  allRecipients : List IUser
  recipientIds : List String
  report : BulkMessageReport
deriving Repr, DecidableEq

/-- The body of the `forEach` in `addRecipientsFromGroup`: push a resolved
user unless its `_id` is already in the set. -/
def addRecipient (st : ResolveState) (r : IUser) : ResolveState :=
  if st.recipientIds.contains r._id then st
  else
    { st with
      allRecipients := st.allRecipients ++ [r]
      recipientIds := st.recipientIds ++ [r._id] }

/-- `addRecipientsFromGroup`: resolve one group; on success merge its users
into the deduplicated accumulator, on failure append a group-level error
entry and count the failure. -/
def BulkMessageService.addRecipientsFromGroup (svc : BulkMessageService) (group : String) (st : ResolveState) : ResolveState :=
  match svc.recipientResolver.resolve group with
  | .ok recipients => recipients.foldl addRecipient st
  | .error e =>
    { st with
      report := { st.report with
        errors := st.report.errors ++ [{ recipientGroup := some group, user := none, name := none, message := e }]
        numFailed := st.report.numFailed + 1 } }

/-- `getRecipients`: resolve every group (the source's `Promise.all` over
per-group tasks, modelled in task-creation order) starting from an empty
accumulator, threading the given report. -/
def BulkMessageService.getRecipients (svc : BulkMessageService) (recipientGroups : List String) (report : BulkMessageReport) : ResolveState :=
  recipientGroups.foldl (fun st group => svc.addRecipientsFromGroup group st)
    { allRecipients := [], recipientIds := [], report := report }

/-- JavaScript's `Array.prototype.join(", ")`. -/
def joinComma : List String → String
  | [] => ""
  | [a] => a
  | a :: b :: rest => a ++ ", " ++ joinComma (b :: rest)

/-- A single quote character, as in the template literal quoting each
invalid group name. -/
def squoteChar : String := (Char.ofNat 39).toString

/-- Wraps a group name in single quotes. -/
def squote (g : String) : String := squoteChar ++ g ++ squoteChar

/-- The message of the validation error thrown by `send`. -/
def invalidRecipientsMessage (invalidGroups : List String) : String :=
  "Invalid recipients: " ++ joinComma (invalidGroups.map squote)

/-- The report `send` initialises before resolving and sending. -/
def emptyReport : BulkMessageReport :=
  { errors := [], numFailed := 0, numRecipients := 0, recipients := [] }

/-- `send`: validate all groups up front (throwing with the list of invalid
names if any fails), then resolve recipients and send to each, returning
the accumulated report. -/
def BulkMessageService.send (svc : BulkMessageService) (recipientGroups : List String) (messageTemplate : String) : Except String BulkMessageReport :=
  let invalidGroups := recipientGroups.filter (fun group => !svc.recipientResolver.canResolve group)
  if invalidGroups.length ≠ 0 then
    .error (invalidRecipientsMessage invalidGroups)
  else
    let st := svc.getRecipients recipientGroups emptyReport
    let report := svc.sendToRecipients st.allRecipients messageTemplate st.report
    .ok report

/-- `previewMessage`: render the template against the synthetic preview
user; no transport, no report. -/
def BulkMessageService.previewMessage (svc : BulkMessageService) (messageTemplate : String) : Except String String :=
  let user := getPreviewUser
  svc.createMessageForUser user messageTemplate

/-! ### Proof-support definitions, read off the code -/

/-- Whether the combined render-and-deliver attempt for a recipient succeeds. -/
def sendOk (svc : BulkMessageService) (template : String) (r : IUser) : Bool :=
  (svc.sendAttempt r template).isOk

/-- The success entry `sendToRecipient` pushes for a recipient. -/
def successEntry (r : IUser) : RecipientEntry :=
  { user := r._id, name := r.name }

/-- The success entries produced by the send phase over a recipient list. -/
def sendSuccessEntries (svc : BulkMessageService) (template : String) (l : List IUser) : List RecipientEntry :=
  l.filterMap fun r =>
    match svc.sendAttempt r template with
    | .ok _ => some (successEntry r)
    | .error _ => none

/-- The error entries produced by the send phase over a recipient list. -/
def sendFailureEntries (svc : BulkMessageService) (template : String) (l : List IUser) : List ErrorEntry :=
  l.filterMap fun r =>
    match svc.sendAttempt r template with
    | .ok _ => none
    | .error e => some { recipientGroup := none, user := some r._id, name := some r.name, message := e }

/-- The users obtained by concatenating the successful group resolutions in
group order. -/
def resolvedConcat (svc : BulkMessageService) (groups : List String) : List IUser :=
  (groups.filterMap fun g => (svc.recipientResolver.resolve g).toOption).flatten

/-- The groups whose resolution fails. -/
def failedGroups (svc : BulkMessageService) (groups : List String) : List String :=
  groups.filter fun g => !(svc.recipientResolver.resolve g).isOk

/-- The group-level error entries produced by the resolve phase. -/
def groupErrors (svc : BulkMessageService) (groups : List String) : List ErrorEntry :=
  groups.filterMap fun g =>
    match svc.recipientResolver.resolve g with
    | .ok _ => none
    | .error e => some { recipientGroup := some g, user := none, name := none, message := e }

/-- First-seen deduplication by `_id` relative to a set of already-seen ids:
the list of users `addRecipient` actually appends. -/
def dedupNew (seen : List String) : List IUser → List IUser
  | [] => []
  | r :: rest =>
    if seen.contains r._id then dedupNew seen rest
    else r :: dedupNew (seen ++ [r._id]) rest

/-! ### Characterisation of the send phase -/

theorem sendToRecipients_spec (svc : BulkMessageService) (template : String) (l : List IUser) :
    ∀ report : BulkMessageReport,
      svc.sendToRecipients l template report =
        { errors := report.errors ++ sendFailureEntries svc template l
          numFailed := report.numFailed + l.countP (fun r => !(sendOk svc template r))
          numRecipients := report.numRecipients + l.countP (sendOk svc template)
          recipients := report.recipients ++ sendSuccessEntries svc template l } := by
  induction l with
  | nil =>
    intro report
    simp [BulkMessageService.sendToRecipients, batchJobQueueRun, sendSuccessEntries,
      sendFailureEntries]
  | cons a rest ih =>
    intro report
    have hstep : svc.sendToRecipients (a :: rest) template report =
        svc.sendToRecipients rest template (svc.sendToRecipient a template report) := rfl
    rw [hstep, ih]
    cases h : svc.sendAttempt a template with
    | ok v =>
      simp [BulkMessageService.sendToRecipient, h, sendOk, sendSuccessEntries,
        sendFailureEntries, successEntry, Except.isOk, Except.toBool, List.countP_cons, List.filterMap_cons,
        List.append_assoc, Nat.add_assoc, Nat.add_comm, Nat.add_left_comm]
    | error e =>
      simp [BulkMessageService.sendToRecipient, h, sendOk, sendSuccessEntries,
        sendFailureEntries, Except.isOk, Except.toBool, List.countP_cons, List.filterMap_cons,
        List.append_assoc, Nat.add_assoc, Nat.add_comm, Nat.add_left_comm]

/-! ### Characterisation of the resolve phase -/

theorem foldl_addRecipient_spec : ∀ (l : List IUser) (st : ResolveState),
    l.foldl addRecipient st =
      { allRecipients := st.allRecipients ++ dedupNew st.recipientIds l
        recipientIds := st.recipientIds ++ (dedupNew st.recipientIds l).map (fun r => r._id)
        report := st.report } := by
  intro l
  induction l with
  | nil => intro st; simp [dedupNew]
  | cons r rest ih =>
    intro st
    by_cases h : st.recipientIds.contains r._id
    · simp only [List.foldl_cons, addRecipient, h, if_true, dedupNew]
      rw [ih]
    · simp only [List.foldl_cons, addRecipient, h, if_false, dedupNew, Bool.false_eq_true]
      rw [ih]
      simp [List.append_assoc]

theorem dedupNew_append : ∀ (l1 l2 : List IUser) (seen : List String),
    dedupNew seen (l1 ++ l2) =
      dedupNew seen l1 ++ dedupNew (seen ++ (dedupNew seen l1).map (fun r => r._id)) l2 := by
  intro l1
  induction l1 with
  | nil => intro l2 seen; simp [dedupNew]
  | cons r rest ih =>
    intro l2 seen
    by_cases h : seen.contains r._id
    · simp only [List.cons_append, dedupNew, h, if_true]
      exact ih l2 seen
    · simp only [List.cons_append, dedupNew, h, if_false, Bool.false_eq_true, List.map_cons,
        List.append_eq]
      rw [ih]
      simp [List.append_assoc]

theorem foldGroups_spec (svc : BulkMessageService) : ∀ (groups : List String) (st : ResolveState),
    groups.foldl (fun st group => svc.addRecipientsFromGroup group st) st =
      { allRecipients := st.allRecipients ++ dedupNew st.recipientIds (resolvedConcat svc groups)
        recipientIds := st.recipientIds ++ (dedupNew st.recipientIds (resolvedConcat svc groups)).map (fun r => r._id)
        report := { errors := st.report.errors ++ groupErrors svc groups
                    numFailed := st.report.numFailed + (failedGroups svc groups).length
                    numRecipients := st.report.numRecipients
                    recipients := st.report.recipients } } := by
  intro groups
  induction groups with
  | nil =>
    intro st
    simp [resolvedConcat, failedGroups, groupErrors, dedupNew]
  | cons g gs ih =>
    intro st
    cases h : svc.recipientResolver.resolve g with
    | ok l =>
      have hstep : (g :: gs).foldl (fun st group => svc.addRecipientsFromGroup group st) st =
          gs.foldl (fun st group => svc.addRecipientsFromGroup group st) (l.foldl addRecipient st) := by
        simp [BulkMessageService.addRecipientsFromGroup, h]
      rw [hstep, foldl_addRecipient_spec, ih]
      have hconcat : resolvedConcat svc (g :: gs) = l ++ resolvedConcat svc gs := by
        simp [resolvedConcat, List.filterMap_cons, h, Except.toOption]
      have herr : groupErrors svc (g :: gs) = groupErrors svc gs := by
        simp [groupErrors, List.filterMap_cons, h]
      have hfail : failedGroups svc (g :: gs) = failedGroups svc gs := by
        simp [failedGroups, List.filter_cons, h, Except.isOk, Except.toBool]
      rw [hconcat, herr, hfail, dedupNew_append]
      simp [List.append_assoc]
    | error e =>
      have hstep : (g :: gs).foldl (fun st group => svc.addRecipientsFromGroup group st) st =
          gs.foldl (fun st group => svc.addRecipientsFromGroup group st)
            { st with report := { st.report with
                errors := st.report.errors ++ [{ recipientGroup := some g, user := none, name := none, message := e }]
                numFailed := st.report.numFailed + 1 } } := by
        simp [BulkMessageService.addRecipientsFromGroup, h]
      rw [hstep, ih]
      have hconcat : resolvedConcat svc (g :: gs) = resolvedConcat svc gs := by
        simp [resolvedConcat, List.filterMap_cons, h, Except.toOption]
      have herr : groupErrors svc (g :: gs) =
          { recipientGroup := some g, user := none, name := none, message := e } :: groupErrors svc gs := by
        simp [groupErrors, List.filterMap_cons, h]
      have hfail : failedGroups svc (g :: gs) = g :: failedGroups svc gs := by
        simp [failedGroups, List.filter_cons, h, Except.isOk, Except.toBool]
      rw [hconcat, herr, hfail]
      simp [List.append_assoc, Nat.add_assoc, Nat.add_comm, Nat.add_left_comm]

theorem getRecipients_spec (svc : BulkMessageService) (groups : List String) (report0 : BulkMessageReport) :
    svc.getRecipients groups report0 =
      { allRecipients := dedupNew [] (resolvedConcat svc groups)
        recipientIds := (dedupNew [] (resolvedConcat svc groups)).map (fun r => r._id)
        report := { errors := report0.errors ++ groupErrors svc groups
                    numFailed := report0.numFailed + (failedGroups svc groups).length
                    numRecipients := report0.numRecipients
                    recipients := report0.recipients } } := by
  unfold BulkMessageService.getRecipients
  rw [foldGroups_spec]
  simp

/-- The deduplicated list of recipients the send phase actually attempts. -/
def attemptedRecipients (svc : BulkMessageService) (groups : List String) : List IUser :=
  (svc.getRecipients groups emptyReport).allRecipients

theorem attemptedRecipients_eq (svc : BulkMessageService) (groups : List String) :
    attemptedRecipients svc groups = dedupNew [] (resolvedConcat svc groups) := by
  unfold attemptedRecipients
  rw [getRecipients_spec]

/-! ### Properties of the deduplication -/

theorem dedupNew_cons_mem (seen : List String) (r : IUser) (rest : List IUser)
    (h : r._id ∈ seen) : dedupNew seen (r :: rest) = dedupNew seen rest := by
  simp [dedupNew, h]

theorem dedupNew_cons_not_mem (seen : List String) (r : IUser) (rest : List IUser)
    (h : r._id ∉ seen) : dedupNew seen (r :: rest) = r :: dedupNew (seen ++ [r._id]) rest := by
  simp [dedupNew, h]

theorem dedupNew_nodup_and_disjoint : ∀ (l : List IUser) (seen : List String),
    ((dedupNew seen l).map (fun r => r._id)).Nodup ∧
      ∀ s ∈ seen, s ∉ (dedupNew seen l).map (fun r => r._id) := by
  intro l
  induction l with
  | nil => intro seen; simp [dedupNew]
  | cons r rest ih =>
    intro seen
    by_cases h : r._id ∈ seen
    · rw [dedupNew_cons_mem seen r rest h]
      exact ih seen
    · rw [dedupNew_cons_not_mem seen r rest h]
      have ih' := ih (seen ++ [r._id])
      constructor
      · simp only [List.map_cons, List.nodup_cons]
        exact ⟨ih'.2 r._id (by simp), ih'.1⟩
      · intro s hs
        simp only [List.map_cons, List.mem_cons]
        push_neg
        refine ⟨fun hcontr => h (hcontr ▸ hs), ih'.2 s (by simp [hs])⟩

theorem attemptedRecipients_nodup (svc : BulkMessageService) (groups : List String) :
    ((attemptedRecipients svc groups).map (fun r => r._id)).Nodup := by
  rw [attemptedRecipients_eq]
  exact (dedupNew_nodup_and_disjoint (resolvedConcat svc groups) []).1

theorem mem_dedupNew : ∀ (l : List IUser) (seen : List String) (u : IUser),
    u ∈ l → u._id ∉ seen → u._id ∈ (dedupNew seen l).map (fun r => r._id) := by
  intro l
  induction l with
  | nil => intro seen u hu; simp at hu
  | cons r rest ih =>
    intro seen u hu hseen
    rcases List.mem_cons.mp hu with heq | hmem
    · subst heq
      rw [dedupNew_cons_not_mem seen u rest hseen]
      simp
    · by_cases h : r._id ∈ seen
      · rw [dedupNew_cons_mem seen r rest h]
        exact ih seen u hmem hseen
      · rw [dedupNew_cons_not_mem seen r rest h]
        simp only [List.map_cons, List.mem_cons]
        by_cases hid : u._id = r._id
        · exact Or.inl hid
        · refine Or.inr (ih (seen ++ [r._id]) u hmem ?_)
          simp only [List.mem_append, List.mem_singleton]
          push_neg
          exact ⟨hseen, hid⟩

theorem dedupNew_of_nodup : ∀ (l : List IUser) (seen : List String),
    (l.map (fun r => r._id)).Nodup → (∀ u ∈ l, u._id ∉ seen) →
      dedupNew seen l = l := by
  intro l
  induction l with
  | nil => intro seen _ _; simp [dedupNew]
  | cons r rest ih =>
    intro seen hnodup hdisj
    rw [dedupNew_cons_not_mem seen r rest (hdisj r (by simp))]
    simp only [List.map_cons, List.nodup_cons] at hnodup
    refine congrArg (r :: ·) (ih (seen ++ [r._id]) hnodup.2 ?_)
    intro u hu
    simp only [List.mem_append, List.mem_singleton]
    push_neg
    refine ⟨hdisj u (by simp [hu]), ?_⟩
    have hm : u._id ∈ rest.map (fun r => r._id) := List.mem_map_of_mem _ hu
    exact fun hc => hnodup.1 (hc ▸ hm)

/-! ### Master characterisation of `send` on valid input -/

theorem send_spec (svc : BulkMessageService) (groups : List String) (t : String)
    (hValid : groups.filter (fun group => !svc.recipientResolver.canResolve group) = []) :
    svc.send groups t = .ok
      { errors := groupErrors svc groups ++ sendFailureEntries svc t (attemptedRecipients svc groups)
        numFailed := (failedGroups svc groups).length +
          (attemptedRecipients svc groups).countP (fun r => !(sendOk svc t r))
        numRecipients := (attemptedRecipients svc groups).countP (sendOk svc t)
        recipients := sendSuccessEntries svc t (attemptedRecipients svc groups) } := by
  unfold BulkMessageService.send
  simp only [hValid, List.length_nil, ne_eq, not_true_eq_false, if_false]
  rw [getRecipients_spec, sendToRecipients_spec]
  simp [emptyReport, attemptedRecipients_eq]

/-! ### Counting helpers -/

theorem countP_and_split {α : Type} (l : List α) (p b : α → Bool) :
    l.countP (fun x => p x && b x) + l.countP (fun x => p x && !(b x)) = l.countP p := by
  induction l with
  | nil => simp
  | cons a rest ih =>
    by_cases hp : p a <;> by_cases hb : b a <;>
      simp [List.countP_cons, hp, hb] <;> omega

/-- The error message produced when resolving a group, empty when resolution
succeeds (used only on failing groups). -/
def resolveErrorMsg (svc : BulkMessageService) (g : String) : String :=
  match svc.recipientResolver.resolve g with
  | .ok _ => ""
  | .error e => e

theorem groupErrors_eq_map (svc : BulkMessageService) : ∀ groups : List String,
    groupErrors svc groups = (failedGroups svc groups).map
      (fun g => { recipientGroup := some g, user := none, name := none, message := resolveErrorMsg svc g }) := by
  intro groups
  induction groups with
  | nil => simp [groupErrors, failedGroups]
  | cons g gs ih =>
    cases h : svc.recipientResolver.resolve g with
    | ok l =>
      simp [groupErrors, failedGroups, List.filterMap_cons, List.filter_cons, h,
        Except.isOk, Except.toBool] at ih ⊢
      exact ih
    | error e =>
      simp [groupErrors, failedGroups, List.filterMap_cons, List.filter_cons, h,
        Except.isOk, Except.toBool, resolveErrorMsg] at ih ⊢
      exact ih

/-! ### The specification's view of deduplication -/

/-- Stated from the spec's words: merge into a single list deduplicated by
`_id`, preserving first-seen order (keep the first occurrence of every id,
drop every later one). -/
def specDedupById : List IUser → List IUser
  | [] => []
  | r :: rest => r :: specDedupById (rest.filter fun x => !(x._id == r._id))
termination_by l => l.length
decreasing_by
  simp only [List.length_cons]
  exact Nat.lt_succ_of_le (List.length_filter_le _ _)

theorem dedupNew_eq_specDedup : ∀ (l : List IUser) (seen : List String),
    dedupNew seen l = specDedupById (l.filter fun x => !(seen.contains x._id)) := by
  intro l
  induction l with
  | nil => intro seen; simp [dedupNew, specDedupById]
  | cons r rest ih =>
    intro seen
    by_cases h : r._id ∈ seen
    · rw [dedupNew_cons_mem seen r rest h]
      have hfilter : (r :: rest).filter (fun x => !(seen.contains x._id)) =
          rest.filter (fun x => !(seen.contains x._id)) := by
        simp [List.filter_cons, h]
      rw [hfilter]
      exact ih seen
    · rw [dedupNew_cons_not_mem seen r rest h]
      have hfilter : (r :: rest).filter (fun x => !(seen.contains x._id)) =
          r :: rest.filter (fun x => !(seen.contains x._id)) := by
        simp [List.filter_cons, h]
      rw [hfilter]
      have hunfold : specDedupById (r :: rest.filter (fun x => !(seen.contains x._id))) =
          r :: specDedupById ((rest.filter (fun x => !(seen.contains x._id))).filter
            (fun x => !(x._id == r._id))) := by
        simp [specDedupById]
      rw [hunfold, List.filter_filter]
      rw [ih (seen ++ [r._id])]
      have hpred : rest.filter (fun x => !((seen ++ [r._id]).contains x._id)) =
          rest.filter (fun a => !(a._id == r._id) && !(seen.contains a._id)) := by
        apply List.filter_congr
        intro x _
        by_cases h1 : x._id ∈ seen <;> by_cases h2 : x._id = r._id <;> simp [h1, h2]
      rw [hpred]

theorem dedupNew_nil_eq_specDedup (l : List IUser) : dedupNew [] l = specDedupById l := by
  rw [dedupNew_eq_specDedup]
  simp

/-- The error message of a failing send attempt, empty on success (used only
on failing recipients). -/
def sendErrorMsg (svc : BulkMessageService) (t : String) (x : IUser) : String :=
  match svc.sendAttempt x t with
  | .ok _ => ""
  | .error e => e

/-- The error entry the send phase pushes for a failing recipient. -/
def failureEntry (svc : BulkMessageService) (t : String) (x : IUser) : ErrorEntry :=
  { recipientGroup := none, user := some x._id, name := some x.name, message := sendErrorMsg svc t x }

theorem countP_sendSuccessEntries (svc : BulkMessageService) (t : String) (l : List IUser) (p : RecipientEntry → Bool) :
    (sendSuccessEntries svc t l).countP p =
      l.countP (fun x => sendOk svc t x && p (successEntry x)) := by
  unfold sendSuccessEntries
  rw [List.countP_filterMap]
  apply List.countP_congr
  intro x _
  cases h : svc.sendAttempt x t <;> simp [sendOk, h, Except.isOk, Except.toBool]

theorem countP_sendFailureEntries (svc : BulkMessageService) (t : String) (l : List IUser) (p : ErrorEntry → Bool) :
    (sendFailureEntries svc t l).countP p =
      l.countP (fun x => !(sendOk svc t x) && p (failureEntry svc t x)) := by
  unfold sendFailureEntries
  rw [List.countP_filterMap]
  apply List.countP_congr
  intro x _
  cases h : svc.sendAttempt x t <;>
    simp [sendOk, h, Except.isOk, Except.toBool, failureEntry, sendErrorMsg]

theorem countP_groupErrors (svc : BulkMessageService) (groups : List String) (p : ErrorEntry → Bool) :
    (groupErrors svc groups).countP p = (failedGroups svc groups).countP
      (fun g => p { recipientGroup := some g, user := none, name := none, message := resolveErrorMsg svc g }) := by
  rw [groupErrors_eq_map, List.countP_map]
  rfl

theorem countP_attempted_id_eq_one (svc : BulkMessageService) (groups : List String) (r : IUser)
    (hr : r ∈ attemptedRecipients svc groups) :
    (attemptedRecipients svc groups).countP (fun x => x._id == r._id) = 1 := by
  have hnd := attemptedRecipients_nodup svc groups
  have hmem : r._id ∈ (attemptedRecipients svc groups).map (fun x => x._id) :=
    List.mem_map_of_mem _ hr
  have h1 := List.count_eq_one_of_mem hnd hmem
  rw [List.count_eq_countP, List.countP_map] at h1
  simpa [Function.comp] using h1

/-- C1: for every `send` call that passes validation and so returns a
report, `numRecipients + numFailed` equals the number of distinct attempted
recipients plus the number of group-level resolution failures; every
attempted recipient (keyed by `_id`) appears in exactly one of
`recipients`/`errors`, and every failed group appears in exactly one
`errors` entry and nowhere else. -/
theorem send_report_partition (svc : BulkMessageService) (groups : List String) (t : String)
    (hValid : groups.filter (fun group => !svc.recipientResolver.canResolve group) = [])
    (hNodup : groups.Nodup) :
    ∃ report : BulkMessageReport, svc.send groups t = .ok report ∧
      report.numRecipients + report.numFailed =
        (attemptedRecipients svc groups).length + (failedGroups svc groups).length ∧
      (∀ r ∈ attemptedRecipients svc groups,
        report.recipients.countP (fun en => en.user == r._id) +
          report.errors.countP (fun en => en.user == some r._id) = 1) ∧
      (∀ g ∈ failedGroups svc groups,
        report.errors.countP (fun en => en.recipientGroup == some g) = 1) := by
  refine ⟨_, send_spec svc groups t hValid, ?_, ?_, ?_⟩
  · have hlen := List.length_eq_countP_add_countP (p := sendOk svc t) (attemptedRecipients svc groups)
    have hco : (attemptedRecipients svc groups).countP (fun a => ¬ sendOk svc t a) =
        (attemptedRecipients svc groups).countP (fun r => !(sendOk svc t r)) := by
      apply List.countP_congr
      intro x _
      simp
    simp only []
    omega
  · intro r hr
    have hrec : (sendSuccessEntries svc t (attemptedRecipients svc groups)).countP
        (fun en => en.user == r._id) =
        (attemptedRecipients svc groups).countP (fun x => (x._id == r._id) && sendOk svc t x) := by
      rw [countP_sendSuccessEntries]
      apply List.countP_congr
      intro x _
      simp [successEntry, Bool.and_comm]
    have hgz : (groupErrors svc groups).countP (fun en => en.user == some r._id) = 0 := by
      rw [countP_groupErrors]
      exact List.countP_eq_zero.mpr (fun g _ => by simp
        )
    have hferr : (sendFailureEntries svc t (attemptedRecipients svc groups)).countP
        (fun en => en.user == some r._id) =
        (attemptedRecipients svc groups).countP (fun x => (x._id == r._id) && !(sendOk svc t x)) := by
      rw [countP_sendFailureEntries]
      apply List.countP_congr
      intro x _
      simp [failureEntry, Bool.and_comm]
    simp only [List.countP_append, hrec, hgz, hferr]
    rw [Nat.zero_add, countP_and_split]
    exact countP_attempted_id_eq_one svc groups r hr
  · intro g hg
    have hgcount : (groupErrors svc groups).countP (fun en => en.recipientGroup == some g) = 1 := by
      rw [countP_groupErrors]
      have hnd : (failedGroups svc groups).Nodup := hNodup.filter _
      have h1 := List.count_eq_one_of_mem hnd hg
      rw [List.count_eq_countP] at h1
      rw [← h1]
      apply List.countP_congr
      intro x _
      simp
    have hfz : (sendFailureEntries svc t (attemptedRecipients svc groups)).countP
        (fun en => en.recipientGroup == some g) = 0 := by
      rw [countP_sendFailureEntries]
      exact List.countP_eq_zero.mpr (fun x _ => by simp [failureEntry])
    simp only [List.countP_append, hgcount, hfz]

/-- C2: when the resolved recipients are N distinct users, rendering
succeeds everywhere, and the transport fails for exactly one of them, the
report has `numRecipients = N - 1`, `numFailed = 1`, the failing
recipient's entry (message, `_id`, name) appears only in `errors`, and
every sibling recipient is still sent and recorded in `recipients`. -/
theorem send_single_transport_failure (svc : BulkMessageService) (g t m em : String)
    (l1 l2 : List IUser) (rstar : IUser)
    (hCan : svc.recipientResolver.canResolve g = true)
    (hRes : svc.recipientResolver.resolve g = .ok (l1 ++ rstar :: l2))
    (hNodup : ((l1 ++ rstar :: l2).map (fun r => r._id)).Nodup)
    (hOk1 : ∀ r ∈ l1, sendOk svc t r = true)
    (hOk2 : ∀ r ∈ l2, sendOk svc t r = true)
    (hMsg : svc.createMessageForUser rstar t = .ok m)
    (hFail : svc.transport.sendMessage rstar m = .error em) :
    ∃ report : BulkMessageReport, svc.send [g] t = .ok report ∧
      report.numRecipients = (l1 ++ rstar :: l2).length - 1 ∧
      report.numFailed = 1 ∧
      report.errors = [{ recipientGroup := none, user := some rstar._id, name := some rstar.name, message := em }] ∧
      report.recipients.countP (fun en => en.user == rstar._id) = 0 ∧
      (∀ r ∈ l1 ++ rstar :: l2, r ≠ rstar → successEntry r ∈ report.recipients) := by
  have hAttempt : svc.sendAttempt rstar t = .error em := by
    unfold BulkMessageService.sendAttempt
    rw [hMsg]
    exact hFail
  have hOkStar : sendOk svc t rstar = false := by
    simp [sendOk, hAttempt, Except.isOk, Except.toBool]
  have hValid : ([g].filter fun group => !svc.recipientResolver.canResolve group) = [] := by
    simp [hCan]
  have hConcat : resolvedConcat svc [g] = l1 ++ rstar :: l2 := by
    simp [resolvedConcat, List.filterMap_cons, hRes, Except.toOption]
  have hAtt : attemptedRecipients svc [g] = l1 ++ rstar :: l2 := by
    rw [attemptedRecipients_eq, hConcat]
    exact dedupNew_of_nodup _ [] hNodup (by simp)
  have hFailedG : failedGroups svc [g] = [] := by
    simp [failedGroups, List.filter_cons, hRes, Except.isOk, Except.toBool]
  have hGroupErr : groupErrors svc [g] = [] := by
    simp [groupErrors, List.filterMap_cons, hRes]
  have hInj : ∀ x ∈ l1 ++ rstar :: l2, x._id = rstar._id → x = rstar :=
    fun x hx hid => List.inj_on_of_nodup_map hNodup hx (by simp) hid
  refine ⟨_, send_spec svc [g] t hValid, ?_, ?_, ?_, ?_, ?_⟩
  · rw [hAtt, hFailedG]
    have h1 : l1.countP (sendOk svc t) = l1.length := List.countP_eq_length.mpr hOk1
    have h2 : l2.countP (sendOk svc t) = l2.length := List.countP_eq_length.mpr hOk2
    simp [List.countP_append, List.countP_cons, h1, h2, hOkStar, List.length_append]
  · rw [hAtt, hFailedG]
    have h1 : l1.countP (fun r => !(sendOk svc t r)) = 0 :=
      List.countP_eq_zero.mpr (fun r hr => by simp [hOk1 r hr])
    have h2 : l2.countP (fun r => !(sendOk svc t r)) = 0 :=
      List.countP_eq_zero.mpr (fun r hr => by simp [hOk2 r hr])
    simp [List.countP_append, List.countP_cons, h1, h2, hOkStar]
  · rw [hAtt, hGroupErr]
    have hnil1 : sendFailureEntries svc t l1 = [] := by
      unfold sendFailureEntries
      refine List.filterMap_eq_nil_iff.mpr (fun r hr => ?_)
      have := hOk1 r hr
      cases hsr : svc.sendAttempt r t with
      | ok _ => simp
      | error e => rw [sendOk, hsr] at this; simp [Except.isOk, Except.toBool] at this
    have hnil2 : sendFailureEntries svc t l2 = [] := by
      unfold sendFailureEntries
      refine List.filterMap_eq_nil_iff.mpr (fun r hr => ?_)
      have := hOk2 r hr
      cases hsr : svc.sendAttempt r t with
      | ok _ => simp
      | error e => rw [sendOk, hsr] at this; simp [Except.isOk, Except.toBool] at this
    have hsplit : sendFailureEntries svc t (l1 ++ rstar :: l2) =
        sendFailureEntries svc t l1 ++ sendFailureEntries svc t (rstar :: l2) := by
      unfold sendFailureEntries
      rw [List.filterMap_append]
    have hcons : sendFailureEntries svc t (rstar :: l2) =
        { recipientGroup := none, user := some rstar._id, name := some rstar.name, message := em } ::
          sendFailureEntries svc t l2 := by
      unfold sendFailureEntries
      rw [List.filterMap_cons, hAttempt]
    rw [hsplit, hnil1, hcons, hnil2]
    simp
  · rw [hAtt]
    rw [countP_sendSuccessEntries]
    refine List.countP_eq_zero.mpr (fun x hx => ?_)
    by_cases hid : x._id = rstar._id
    · have hx2 : x = rstar := hInj x hx hid
      subst hx2
      simp [hOkStar]
    · simp [successEntry, hid]
  · intro r hr hne
    rw [hAtt]
    have hok : sendOk svc t r = true := by
      rcases List.mem_append.mp hr with h1 | h12
      · exact hOk1 r h1
      · rcases List.mem_cons.mp h12 with he | h2
        · exact absurd he hne
        · exact hOk2 r h2
    unfold sendSuccessEntries
    refine List.mem_filterMap.mpr ⟨r, hr, ?_⟩
    cases hsr : svc.sendAttempt r t with
    | ok _ => rfl
    | error e => rw [sendOk, hsr] at hok; simp [Except.isOk, Except.toBool] at hok

theorem joinComma_contains : ∀ (l : List String) (g : String), g ∈ l →
    ∃ pre post : String, joinComma (l.map squote) = pre ++ g ++ post := by
  intro l
  induction l with
  | nil => intro g hg; simp at hg
  | cons a rest ih =>
    intro g hg
    cases rest with
    | nil =>
      have hga : g = a := by simpa using hg
      subst hga
      exact ⟨squoteChar, squoteChar, rfl⟩
    | cons b rest2 =>
      rcases List.mem_cons.mp hg with heq | hmem
      · subst heq
        refine ⟨squoteChar, squoteChar ++ (", " ++ joinComma ((b :: rest2).map squote)), ?_⟩
        simp only [List.map_cons, joinComma, squote]
        simp [String.append_assoc]
      · rcases ih g hmem with ⟨pre, post, hpp⟩
        refine ⟨squote a ++ ", " ++ pre, post, ?_⟩
        simp only [List.map_cons, joinComma] at hpp ⊢
        rw [hpp]
        simp [String.append_assoc]

/-- C3: when some requested group fails `canResolve`, `send` throws a
validation error whose message lists all the invalid group names; the
outcome is the same error for any resolver `resolve`, context factory,
template resolver or transport (so no resolution and no transport call can
influence it), and no report is produced. -/
theorem send_invalid_groups_throws (svc : BulkMessageService) (groups : List String) (t : String)
    (hInvalid : ∃ g ∈ groups, svc.recipientResolver.canResolve g = false) :
    svc.send groups t =
      .error (invalidRecipientsMessage
        (groups.filter (fun group => !svc.recipientResolver.canResolve group))) ∧
    (∀ (svc2 : BulkMessageService) (t2 : String),
      svc2.recipientResolver.canResolve = svc.recipientResolver.canResolve →
        svc2.send groups t2 = svc.send groups t) ∧
    (∀ g ∈ groups, svc.recipientResolver.canResolve g = false →
      ∃ pre post : String,
        invalidRecipientsMessage
          (groups.filter (fun group => !svc.recipientResolver.canResolve group)) =
          pre ++ g ++ post) := by
  have hne : (groups.filter (fun group => !svc.recipientResolver.canResolve group)).length ≠ 0 := by
    rcases hInvalid with ⟨g, hg, hcan⟩
    have hmem : g ∈ groups.filter (fun group => !svc.recipientResolver.canResolve group) :=
      List.mem_filter.mpr ⟨hg, by simp [hcan]⟩
    intro h0
    rw [List.length_eq_zero] at h0
    rw [h0] at hmem
    simp at hmem
  have hthrow : svc.send groups t =
      .error (invalidRecipientsMessage
        (groups.filter (fun group => !svc.recipientResolver.canResolve group))) := by
    simp only [BulkMessageService.send]
    rw [if_pos hne]
  refine ⟨hthrow, ?_, ?_⟩
  · intro svc2 t2 hcanEq
    have hne2 : (groups.filter (fun group => !svc2.recipientResolver.canResolve group)).length ≠ 0 := by
      rw [hcanEq]
      exact hne
    have hthrow2 : svc2.send groups t2 =
        .error (invalidRecipientsMessage
          (groups.filter (fun group => !svc2.recipientResolver.canResolve group))) := by
      simp only [BulkMessageService.send]
      rw [if_pos hne2]
    rw [hthrow, hthrow2, hcanEq]
  · intro g hg hcan
    have hmem : g ∈ groups.filter (fun group => !svc.recipientResolver.canResolve group) :=
      List.mem_filter.mpr ⟨hg, by simp [hcan]⟩
    rcases joinComma_contains _ g hmem with ⟨pre, post, hpp⟩
    refine ⟨"Invalid recipients: " ++ pre, post, ?_⟩
    unfold invalidRecipientsMessage
    rw [hpp]
    simp [String.append_assoc]

theorem mem_of_mem_dedupNew : ∀ (l : List IUser) (seen : List String) (x : IUser),
    x ∈ dedupNew seen l → x ∈ l := by
  intro l
  induction l with
  | nil => intro seen x hx; simp [dedupNew] at hx
  | cons r rest ih =>
    intro seen x hx
    by_cases h : r._id ∈ seen
    · rw [dedupNew_cons_mem seen r rest h] at hx
      exact List.mem_cons_of_mem r (ih seen x hx)
    · rw [dedupNew_cons_not_mem seen r rest h] at hx
      rcases List.mem_cons.mp hx with heq | hmem
      · exact heq ▸ List.mem_cons_self r rest
      · exact List.mem_cons_of_mem r (ih (seen ++ [r._id]) x hmem)

theorem length_sendSuccessEntries (svc : BulkMessageService) (t : String) (l : List IUser) :
    (sendSuccessEntries svc t l).length = l.countP (sendOk svc t) := by
  unfold sendSuccessEntries
  rw [List.length_filterMap_eq_countP]
  apply List.countP_congr
  intro x _
  cases h : svc.sendAttempt x t <;> simp [sendOk, h, Except.isOk, Except.toBool]

theorem length_sendFailureEntries (svc : BulkMessageService) (t : String) (l : List IUser) :
    (sendFailureEntries svc t l).length = l.countP (fun r => !(sendOk svc t r)) := by
  unfold sendFailureEntries
  rw [List.length_filterMap_eq_countP]
  apply List.countP_congr
  intro x _
  cases h : svc.sendAttempt x t <;> simp [sendOk, h, Except.isOk, Except.toBool]

theorem countP_attempted_of_id_mem (svc : BulkMessageService) (groups : List String) (i : String)
    (hid : i ∈ (attemptedRecipients svc groups).map (fun x => x._id)) :
    (attemptedRecipients svc groups).countP (fun x => x._id == i) = 1 := by
  have hnd := attemptedRecipients_nodup svc groups
  have h1 := List.count_eq_one_of_mem hnd hid
  rw [List.count_eq_countP, List.countP_map] at h1
  simpa [Function.comp] using h1

/-- C4: resolved users are merged into one list deduplicated by `_id` in
first-seen order (shown against the specification's own deduplication
function); a user resolved by several groups is attempted exactly once,
and when its sends succeed it is recorded and counted exactly once in
`recipients`/`numRecipients`. -/
theorem send_dedup_across_groups (svc : BulkMessageService) (groups : List String) (t : String) (u : IUser)
    (hValid : groups.filter (fun group => !svc.recipientResolver.canResolve group) = [])
    (hMem : u ∈ resolvedConcat svc groups)
    (hOkAll : ∀ x ∈ resolvedConcat svc groups, x._id = u._id → sendOk svc t x = true) :
    attemptedRecipients svc groups = specDedupById (resolvedConcat svc groups) ∧
    ((attemptedRecipients svc groups).map (fun r => r._id)).Nodup ∧
    (attemptedRecipients svc groups).countP (fun x => x._id == u._id) = 1 ∧
    ∃ report : BulkMessageReport, svc.send groups t = .ok report ∧
      report.numRecipients = report.recipients.length ∧
      report.recipients.countP (fun en => en.user == u._id) = 1 := by
  have hidmem : u._id ∈ (attemptedRecipients svc groups).map (fun x => x._id) := by
    rw [attemptedRecipients_eq]
    exact mem_dedupNew _ [] u hMem (by simp)
  refine ⟨?_, attemptedRecipients_nodup svc groups, countP_attempted_of_id_mem svc groups u._id hidmem, ?_⟩
  · rw [attemptedRecipients_eq]
    exact dedupNew_nil_eq_specDedup _
  · refine ⟨_, send_spec svc groups t hValid, ?_, ?_⟩
    · rw [length_sendSuccessEntries]
    · rw [countP_sendSuccessEntries]
      have hcong : (attemptedRecipients svc groups).countP
          (fun x => sendOk svc t x && (successEntry x).user == u._id) =
          (attemptedRecipients svc groups).countP (fun x => x._id == u._id) := by
        apply List.countP_congr
        intro x hx
        have hxconcat : x ∈ resolvedConcat svc groups := by
          rw [attemptedRecipients_eq] at hx
          exact mem_of_mem_dedupNew _ [] x hx
        by_cases hid : x._id = u._id
        · simp [successEntry, hid, hOkAll x hxconcat hid]
        · simp [successEntry, hid]
      rw [hcong]
      exact countP_attempted_of_id_mem svc groups u._id hidmem

/-- C10: deduplication by `_id` applies within a single group's resolved
sequence: a user occurring more than once in one group's resolution is
attempted only once, and appears exactly once across `recipients`/`errors`. -/
theorem dedup_within_single_group (svc : BulkMessageService) (g t : String) (u : IUser) (l : List IUser)
    (hCan : svc.recipientResolver.canResolve g = true)
    (hRes : svc.recipientResolver.resolve g = .ok l)
    (hDup : 2 ≤ l.countP (fun x => x._id == u._id))
    (hMem : u ∈ l) :
    (attemptedRecipients svc [g]).countP (fun x => x._id == u._id) = 1 ∧
    ∃ report : BulkMessageReport, svc.send [g] t = .ok report ∧
      report.recipients.countP (fun en => en.user == u._id) +
        report.errors.countP (fun en => en.user == some u._id) = 1 := by
  have hValid : ([g].filter fun group => !svc.recipientResolver.canResolve group) = [] := by
    simp [hCan]
  have hConcat : resolvedConcat svc [g] = l := by
    simp [resolvedConcat, List.filterMap_cons, hRes, Except.toOption]
  have hidmem : u._id ∈ (attemptedRecipients svc [g]).map (fun x => x._id) := by
    rw [attemptedRecipients_eq, hConcat]
    exact mem_dedupNew _ [] u hMem (by simp)
  refine ⟨countP_attempted_of_id_mem svc [g] u._id hidmem, ?_⟩
  refine ⟨_, send_spec svc [g] t hValid, ?_⟩
  have hrec : (sendSuccessEntries svc t (attemptedRecipients svc [g])).countP
      (fun en => en.user == u._id) =
      (attemptedRecipients svc [g]).countP (fun x => (x._id == u._id) && sendOk svc t x) := by
    rw [countP_sendSuccessEntries]
    apply List.countP_congr
    intro x _
    simp [successEntry, Bool.and_comm]
  have hgz : (groupErrors svc [g]).countP (fun en => en.user == some u._id) = 0 := by
    rw [countP_groupErrors]
    exact List.countP_eq_zero.mpr (fun x _ => by simp)
  have hferr : (sendFailureEntries svc t (attemptedRecipients svc [g])).countP
      (fun en => en.user == some u._id) =
      (attemptedRecipients svc [g]).countP (fun x => (x._id == u._id) && !(sendOk svc t x)) := by
    rw [countP_sendFailureEntries]
    apply List.countP_congr
    intro x _
    simp [failureEntry, Bool.and_comm]
  simp only [List.countP_append, hrec, hgz, hferr]
  rw [Nat.zero_add, countP_and_split]
  exact countP_attempted_of_id_mem svc [g] u._id hidmem

/-- C5: a failing resolution of one valid group is captured as exactly one
`errors` entry (that group's name, null user/name, the error message),
counts as exactly one failure regardless of the group's size (numFailed
equals the total number of error entries, one per failed group plus one per
failed recipient), and `send` still returns a report. -/
theorem group_resolution_failure_captured (svc : BulkMessageService) (groups : List String)
    (t g e : String)
    (hValid : groups.filter (fun group => !svc.recipientResolver.canResolve group) = [])
    (hNodup : groups.Nodup)
    (hg : g ∈ groups)
    (hRes : svc.recipientResolver.resolve g = .error e) :
    ∃ report : BulkMessageReport, svc.send groups t = .ok report ∧
      report.errors.countP (fun en => en.recipientGroup == some g) = 1 ∧
      ({ recipientGroup := some g, user := none, name := none, message := e } : ErrorEntry) ∈ report.errors ∧
      report.numFailed = report.errors.length := by
  have hgFail : g ∈ failedGroups svc groups :=
    List.mem_filter.mpr ⟨hg, by simp [hRes, Except.isOk, Except.toBool]⟩
  refine ⟨_, send_spec svc groups t hValid, ?_, ?_, ?_⟩
  · have hgcount : (groupErrors svc groups).countP (fun en => en.recipientGroup == some g) = 1 := by
      rw [countP_groupErrors]
      have hnd : (failedGroups svc groups).Nodup := hNodup.filter _
      have h1 := List.count_eq_one_of_mem hnd hgFail
      rw [List.count_eq_countP] at h1
      rw [← h1]
      apply List.countP_congr
      intro x _
      simp
    have hfz : (sendFailureEntries svc t (attemptedRecipients svc groups)).countP
        (fun en => en.recipientGroup == some g) = 0 := by
      rw [countP_sendFailureEntries]
      exact List.countP_eq_zero.mpr (fun x _ => by simp [failureEntry])
    simp only [List.countP_append, hgcount, hfz]
  · apply List.mem_append_left
    rw [groupErrors_eq_map]
    have hmsg : resolveErrorMsg svc g = e := by
      simp [resolveErrorMsg, hRes]
    refine List.mem_map.mpr ⟨g, hgFail, ?_⟩
    rw [hmsg]
  · show (failedGroups svc groups).length + _ = _
    rw [List.length_append, length_sendFailureEntries, groupErrors_eq_map, List.length_map]

/-- The concrete recipient resolver of the specification's worked example:
the single group "teamA" resolving to the two users of the example. -/
def exampleResolver : IRecipientResolver :=
  { canResolve := fun g => g == "teamA"
    resolve := fun g =>
      if g == "teamA" then .ok [{ _id := "1", name := "A", phone := "p1" }, { _id := "2", name := "B", phone := "p2" }]
      else .error "unknown group" }

/-- A context factory exposing the user's name, as the example's template
needs. -/
def exampleContextFactory : IMessageContextFactory :=
  { createContextFromUser := fun u => .ok [("name", u.name)] }

/-- A transport that always succeeds. -/
def alwaysOkTransport : IMessageTransport :=
  { sendMessage := fun _ _ => .ok () }

/-- The service of the specification's worked example. -/
def exampleService : BulkMessageService :=
  { recipientResolver := exampleResolver
    contextFactory := exampleContextFactory
    templateResolver := MessageTemplateResolver
    transport := alwaysOkTransport }

/-- C6: on the worked example — groups `["teamA"]` resolving to users 1/A
and 2/B, template "Hi {{name}}", transport always succeeding — `send`
returns exactly the report `numRecipients = 2`, `numFailed = 0`,
`recipients = [{user:"1",name:"A"},{user:"2",name:"B"}]` in order,
`errors = []`. -/
theorem send_worked_example :
    exampleService.send ["teamA"] "Hi \x7b\x7bname\x7d\x7d" =
      .ok { errors := [], numFailed := 0, numRecipients := 2,
            recipients := [{ user := "1", name := "A" }, { user := "2", name := "B" }] } := by
  rfl

/-- C7: `previewMessage` depends only on the context factory and the
template resolver — the transport and the recipient resolver can be
replaced arbitrarily without changing the result — and, those two
collaborators being fixed, every call with the same template returns the
same string (and no report or recipient state exists to be mutated). -/
theorem previewMessage_no_side_effects (svc1 svc2 : BulkMessageService) (t : String)
    (hctx : svc1.contextFactory = svc2.contextFactory)
    (htpl : svc1.templateResolver = svc2.templateResolver) :
    svc1.previewMessage t = svc2.previewMessage t := by
  unfold BulkMessageService.previewMessage BulkMessageService.createMessageForUser
  rw [hctx, htpl]

/-- C9: `previewMessage` is exactly `createMessageForUser` on the preview
user: a context-factory or template-resolver failure is returned to the
caller as the same error, never caught and never recorded. -/
theorem previewMessage_propagates_errors (svc : BulkMessageService) (t : String) :
    svc.previewMessage t = svc.createMessageForUser getPreviewUser t ∧
    (∀ e : String, svc.createMessageForUser getPreviewUser t = .error e →
      svc.previewMessage t = .error e) := by
  refine ⟨rfl, ?_⟩
  intro e h
  rw [← h]
  rfl

/-- C8: the constructor fails exactly when both members of a required pair
are absent — no recipient resolver and no user service, or no transport
and no SMS service — and otherwise succeeds, storing the given
collaborators and filling each missing one with its default
implementation. -/
theorem construct_validation (args : BulkMessageServiceArgs) :
    ((BulkMessageService.construct args).isOk = false ↔
      (args.recipientResolver = none ∧ args.users = none) ∨
      (args.transport = none ∧ args.smsService = none)) ∧
    (∀ svc : BulkMessageService, BulkMessageService.construct args = .ok svc →
      svc.contextFactory = args.contextFactory ∧
      svc.templateResolver = args.templateResolver.getD MessageTemplateResolver ∧
      svc.recipientResolver = args.recipientResolver.getD (RecipientResolver args.users) ∧
      svc.transport = args.transport.getD (SmsMessageTransport args.smsService)) := by
  rcases hr : args.recipientResolver with _ | r <;>
    rcases hu : args.users with _ | u <;>
      rcases ht : args.transport with _ | tr <;>
        rcases hs : args.smsService with _ | s <;>
          constructor <;>
            simp [BulkMessageService.construct, hr, hu, ht, hs, Except.isOk, Except.toBool] <;>
              (try (intro svc hsvc; rw [← hsvc])) <;> simp

/-! ### Concrete fixtures for the witnesses -/

/-- A context factory exposing the user's name. -/
def wCtx : IMessageContextFactory :=
  { createContextFromUser := fun u => .ok [("name", u.name)] }

/-- A context factory that always fails. -/
def wCtxFail : IMessageContextFactory :=
  { createContextFromUser := fun _ => .error "ctx failed" }

/-- A template resolver returning the template unchanged. -/
def wTplOk : IMessageTemplateResolver :=
  { resolve := fun _ t => .ok t }

/-- A transport failing exactly for the user with `_id` "2". -/
def wTransportFail2 : IMessageTransport :=
  { sendMessage := fun u _ => if u._id == "2" then .error "network down" else .ok () }

/-- Example users. -/
def wUserA : IUser := { _id := "1", name := "A", phone := "p1" }

/-- Example users. -/
def wUserB : IUser := { _id := "2", name := "B", phone := "p2" }

/-- A resolver accepting every group name, resolving "ga" to one user and
failing on everything else. -/
def w1resolver : IRecipientResolver :=
  { canResolve := fun _ => true
    resolve := fun g => if g == "ga" then .ok [wUserA] else .error "resolution failed" }

/-- A service over `w1resolver` with an always-succeeding transport. -/
def w1svc : BulkMessageService :=
  { recipientResolver := w1resolver
    contextFactory := wCtx
    templateResolver := wTplOk
    transport := alwaysOkTransport }

theorem send_report_partition_witness :
    ∃ report : BulkMessageReport, w1svc.send ["ga", "gb"] "t" = .ok report ∧
      report.numRecipients + report.numFailed =
        (attemptedRecipients w1svc ["ga", "gb"]).length + (failedGroups w1svc ["ga", "gb"]).length ∧
      (∀ r ∈ attemptedRecipients w1svc ["ga", "gb"],
        report.recipients.countP (fun en => en.user == r._id) +
          report.errors.countP (fun en => en.user == some r._id) = 1) ∧
      (∀ g ∈ failedGroups w1svc ["ga", "gb"],
        report.errors.countP (fun en => en.recipientGroup == some g) = 1) :=
  send_report_partition w1svc ["ga", "gb"] "t" rfl (by decide)

/-- A resolver for the group "team" only, resolving it to the two users. -/
def w2resolver : IRecipientResolver :=
  { canResolve := fun g => g == "team"
    resolve := fun g => if g == "team" then .ok [wUserA, wUserB] else .error "unknown group" }

/-- A service whose transport fails exactly for user "2". -/
def w2svc : BulkMessageService :=
  { recipientResolver := w2resolver
    contextFactory := wCtx
    templateResolver := wTplOk
    transport := wTransportFail2 }

theorem send_single_transport_failure_witness :
    ∃ report : BulkMessageReport, w2svc.send ["team"] "t" = .ok report ∧
      report.numRecipients = ([wUserA] ++ wUserB :: []).length - 1 ∧
      report.numFailed = 1 ∧
      report.errors = [{ recipientGroup := none, user := some wUserB._id, name := some wUserB.name, message := "network down" }] ∧
      report.recipients.countP (fun en => en.user == wUserB._id) = 0 ∧
      (∀ r ∈ [wUserA] ++ wUserB :: [], r ≠ wUserB → successEntry r ∈ report.recipients) :=
  send_single_transport_failure w2svc "team" "t" "t" "network down" [wUserA] [] wUserB
    rfl rfl (by decide) (by decide) (by decide) rfl rfl

theorem send_invalid_groups_throws_witness :
    exampleService.send ["nonexistent-group"] "t" =
      .error (invalidRecipientsMessage
        (["nonexistent-group"].filter
          (fun group => !exampleService.recipientResolver.canResolve group))) ∧
    (∀ (svc2 : BulkMessageService) (t2 : String),
      svc2.recipientResolver.canResolve = exampleService.recipientResolver.canResolve →
        svc2.send ["nonexistent-group"] t2 = exampleService.send ["nonexistent-group"] "t") ∧
    (∀ g ∈ ["nonexistent-group"], exampleService.recipientResolver.canResolve g = false →
      ∃ pre post : String,
        invalidRecipientsMessage
          (["nonexistent-group"].filter
            (fun group => !exampleService.recipientResolver.canResolve group)) =
          pre ++ g ++ post) :=
  send_invalid_groups_throws exampleService ["nonexistent-group"] "t"
    ⟨"nonexistent-group", by decide, rfl⟩

/-- A resolver with two overlapping groups: "g1" resolves to both users,
"g2" to user "2" again. -/
def w4resolver : IRecipientResolver :=
  { canResolve := fun _ => true
    resolve := fun g =>
      if g == "g1" then .ok [wUserA, wUserB]
      else if g == "g2" then .ok [wUserB]
      else .error "unknown group" }

/-- A service over the overlapping groups with an always-succeeding
transport. -/
def w4svc : BulkMessageService :=
  { recipientResolver := w4resolver
    contextFactory := wCtx
    templateResolver := wTplOk
    transport := alwaysOkTransport }

theorem send_dedup_across_groups_witness :
    attemptedRecipients w4svc ["g1", "g2"] = specDedupById (resolvedConcat w4svc ["g1", "g2"]) ∧
    ((attemptedRecipients w4svc ["g1", "g2"]).map (fun r => r._id)).Nodup ∧
    (attemptedRecipients w4svc ["g1", "g2"]).countP (fun x => x._id == wUserB._id) = 1 ∧
    ∃ report : BulkMessageReport, w4svc.send ["g1", "g2"] "t" = .ok report ∧
      report.numRecipients = report.recipients.length ∧
      report.recipients.countP (fun en => en.user == wUserB._id) = 1 :=
  send_dedup_across_groups w4svc ["g1", "g2"] "t" wUserB rfl (by decide) (by decide)

theorem group_resolution_failure_captured_witness :
    ∃ report : BulkMessageReport, w1svc.send ["ga", "gb"] "t" = .ok report ∧
      report.errors.countP (fun en => en.recipientGroup == some "gb") = 1 ∧
      ({ recipientGroup := some "gb", user := none, name := none, message := "resolution failed" } : ErrorEntry) ∈ report.errors ∧
      report.numFailed = report.errors.length :=
  group_resolution_failure_captured w1svc ["ga", "gb"] "t" "gb" "resolution failed"
    rfl (by decide) (by decide) rfl

/-- A second service sharing `w1svc`'s context factory and template
resolver but with a different resolver and a failing transport. -/
def w7svc2 : BulkMessageService :=
  { recipientResolver := w2resolver
    contextFactory := wCtx
    templateResolver := wTplOk
    transport := wTransportFail2 }

theorem previewMessage_no_side_effects_witness :
    w1svc.previewMessage "Hello" = w7svc2.previewMessage "Hello" :=
  previewMessage_no_side_effects w1svc w7svc2 "Hello" rfl rfl

/-- A service whose context factory always fails. -/
def w9svc : BulkMessageService :=
  { recipientResolver := w1resolver
    contextFactory := wCtxFail
    templateResolver := wTplOk
    transport := alwaysOkTransport }

theorem previewMessage_propagates_errors_witness :
    w9svc.createMessageForUser getPreviewUser "t" = .error "ctx failed" ∧
    w9svc.previewMessage "t" = .error "ctx failed" :=
  ⟨rfl, (previewMessage_propagates_errors w9svc "t").2 "ctx failed" rfl⟩

/-- An SMS service that always succeeds. -/
def wSms : ISmsService := { sendSms := fun _ _ => .ok () }

/-- Constructor arguments supplying a recipient resolver and an SMS service
but no user service, template resolver or transport. -/
def args8w : BulkMessageServiceArgs :=
  { contextFactory := wCtx
    templateResolver := none
    transport := none
    smsService := some wSms
    recipientResolver := some w1resolver
    users := none }

/-- The service `construct` builds from `args8w`. -/
def svc8val : BulkMessageService :=
  { recipientResolver := w1resolver
    contextFactory := wCtx
    templateResolver := MessageTemplateResolver
    transport := SmsMessageTransport (some wSms) }

theorem construct_validation_witness :
    svc8val.contextFactory = args8w.contextFactory ∧
    svc8val.templateResolver = args8w.templateResolver.getD MessageTemplateResolver ∧
    svc8val.recipientResolver = args8w.recipientResolver.getD (RecipientResolver args8w.users) ∧
    svc8val.transport = args8w.transport.getD (SmsMessageTransport args8w.smsService) :=
  (construct_validation args8w).2 svc8val rfl

/-- A resolver whose single group "dup" resolves to a list repeating user
"2". -/
def w10resolver : IRecipientResolver :=
  { canResolve := fun g => g == "dup"
    resolve := fun g => if g == "dup" then .ok [wUserA, wUserB, wUserB] else .error "unknown group" }

/-- A service over the duplicate-containing group. -/
def w10svc : BulkMessageService :=
  { recipientResolver := w10resolver
    contextFactory := wCtx
    templateResolver := wTplOk
    transport := alwaysOkTransport }

theorem dedup_within_single_group_witness :
    (attemptedRecipients w10svc ["dup"]).countP (fun x => x._id == wUserB._id) = 1 ∧
    ∃ report : BulkMessageReport, w10svc.send ["dup"] "t" = .ok report ∧
      report.recipients.countP (fun en => en.user == wUserB._id) +
        report.errors.countP (fun en => en.user == some wUserB._id) = 1 :=
  dedup_within_single_group w10svc "dup" "t" wUserB [wUserA, wUserB, wUserB]
    rfl rfl (by decide) (by decide)
